import Mathlib

/-!
Shallow embedding of the crossplane agent's dual-cluster reconciliation
engine: the requirement reconciler
(pkg/controllers/requirement/reconciler.go) and the cluster syncer
reconciler together with its garbage-collection sweep
(pkg/controllers/cluster/syncer/reconciler.go).

Each store operation the reconcilers perform is modelled by an
environment record describing the result that operation would return.
One reconciler invocation is then a pure function from such an
environment to an outcome carrying the returned requeue directive,
whether an error was returned, the ordered trace of write operations
issued against either store, and (for the requirement reconciler)
whether the sync finalizer was removed in this invocation.
-/

/-- System/identity metadata of a store object: fields owned by the
store, never meant to cross the cluster boundary. -/
structure SystemMeta where
  uid : String
  resourceVersion : String
  creationTimestamp : Nat
  generation : Nat
deriving DecidableEq

/-- Reference to a connection secret, by name. -/
structure SecretRef where
  name : String
deriving DecidableEq

/-- Desired-state spec of a requirement: the connection-secret
reference plus opaque remaining fields. -/
structure ReqSpec where
  writeConnectionSecretToRef : Option SecretRef
  fields : List (String × String)
deriving DecidableEq

/-- A resource instance as stored in one cluster. -/
structure Instance where
  name : String
  ns : String
  sys : SystemMeta
  labels : List (String × String)
  annots : List (String × String)
  deletionTimestamp : Option Nat
  finalizers : List String
  spec : ReqSpec
  status : List (String × String)
deriving DecidableEq

/-- Owner reference carried by a dependent object. -/
structure OwnerRef where
  name : String
  uid : String
  controller : Bool
deriving DecidableEq

/-- A key/value credential secret object. -/
structure KSecret where
  name : String
  ns : String
  data : List (String × String)
  ownerRefs : List OwnerRef
deriving DecidableEq

/-- Result of a store get: the object, an explicit not-found report, or
any other error. -/
inductive GetResult (α : Type) where
  | ok (value : α)
  | notFound
  | err
deriving DecidableEq

/-- Result of a store delete: success, not-found, or any other error. -/
inductive OpResult where
  | ok
  | notFound
  | err
deriving DecidableEq

/-- Requeue directive returned to the external scheduler
(reconcile.Result). -/
inductive Directive where
  | noRequeue
  | after (seconds : Nat)
deriving DecidableEq

/-- Short retry wait of both reconciler files, in seconds. -/
def shortWait : Nat := 30

/-- Long wait of both reconciler files, in seconds. -/
def longWait : Nat := 60

/-- Tiny deletion re-check wait of the requirement reconciler. -/
def tinyWait : Nat := 5

/-- The sync finalizer string of the requirement reconciler. -/
def syncFinalizerName : String := "agent.crossplane.io/sync"

/-- One write operation issued against a store, with its payload. -/
inductive Write where
  | addFinalizer (obj : Instance)
  | removeFinalizer (obj : Instance)
  | remoteDelete (obj : Instance)
  | remoteCreate (obj : Instance)
  | remoteUpdate (obj : Instance)
  | localUpdate (obj : Instance)
  | localStatusUpdate (obj : Instance)
  | localApplySecret (s : KSecret)
  | localApplyInstance (obj : Instance)
  | localDeleteName (n : String)
deriving DecidableEq

/-- meta.WasDeleted: the deletion timestamp is set. -/
def WasDeleted (i : Instance) : Bool := i.deletionTimestamp.isSome

/-- meta.WasCreated: the creation timestamp is non-zero. -/
def WasCreated (i : Instance) : Bool := i.sys.creationTimestamp != 0

/-- A freshly constructed instance (newInstance), before any store get
populates it. -/
def freshInstance : Instance :=
  ⟨"", "", ⟨"", "", 0, 0⟩, [], [], none, [], ⟨none, []⟩, []⟩

/-- Modelled from the spec: pkg/resource.OverrideInputMetadata, whose
source file is not available. Per the spec, the target copy's name,
namespace and user-visible labels/annotations are overwritten from the
source, while UID, resourceVersion, timestamps and generation of the
target are left untouched. -/
def OverrideInputMetadata (src tgt : Instance) : Instance :=
  { tgt with
      name := src.name
      ns := src.ns
      labels := src.labels
      annots := src.annots }

/-- Modelled from the spec: pkg/resource.EqualizeRequirementSpec, whose
source file is not available. Per the spec, the local side is
authoritative for the desired spec, so the target copy takes the
source's spec; system metadata is untouched. -/
def EqualizeRequirementSpec (src tgt : Instance) : Instance :=
  { tgt with spec := src.spec }

/-- Modelled from the spec: pkg/resource.PropagateStatus, whose source
file is not available. Per the spec, the remote side is authoritative
for observed status, so the target copy takes the source's status; the
conversion step may fail, which the environment models with a flag. -/
def PropagateStatus (src tgt : Instance) : Instance :=
  { tgt with status := src.status }

/-- Modelled from the spec: pkg/resource.EqualizeMetadata, whose source
file is not available. Per the spec, the copy applied to the target
store keeps the target-side system metadata (empty when no target copy
exists yet), so remote system metadata never crosses the boundary. -/
def EqualizeMetadata (existing inst : Instance) : Instance :=
  { inst with sys := existing.sys }

/-- meta.AsController(meta.ReferenceTo(i, gvk)): an owner reference to
the instance with the controller flag set. -/
def asController (i : Instance) : OwnerRef := ⟨i.name, i.sys.uid, true⟩

/-- meta.AddOwnerReference: replace an existing reference with the same
UID, otherwise append. -/
def AddOwnerReference (s : KSecret) (r : OwnerRef) : KSecret :=
  if s.ownerRefs.any (fun o => o.uid == r.uid) then
    { s with ownerRefs := s.ownerRefs.map (fun o => if o.uid == r.uid then r else o) }
  else
    { s with ownerRefs := s.ownerRefs ++ [r] }

/-- Environment of one requirement-reconciler invocation: the result of
every store operation the invocation may perform, in program order. -/
structure ReqEnv where
  localGet : GetResult Instance
  remoteGet : GetResult Instance
  removeFinalizerOk : Bool
  remoteDeleteRes : OpResult
  addFinalizerOk : Bool
  remoteCreateOk : Bool
  remoteUpdateOk : Bool
  localUpdateOk : Bool
  statusConvOk : Bool
  localStatusUpdateOk : Bool
  remoteSecretGet : GetResult KSecret
  localApplySecretOk : Bool
deriving DecidableEq

/-- Outcome of one requirement-reconciler invocation. -/
structure ReqOutcome where
  directive : Directive
  hasError : Bool
  writes : List Write
  removedFinalizer : Bool
deriving DecidableEq

/-- The local instance after rresource.APIFinalizer.AddFinalizer: the
finalizer is appended unless already present. -/
def withFinalizer (re : Instance) : Instance :=
  if re.finalizers.contains syncFinalizerName then re
  else { re with finalizers := re.finalizers ++ [syncFinalizerName] }

/-- Writes issued by AddFinalizer: none when the finalizer is already
present (the helper returns early without an update). -/
def addFinWrites (re : Instance) : List Write :=
  if re.finalizers.contains syncFinalizerName then [] else [Write.addFinalizer re]

/-- The remote copy after OverrideInputMetadata and
EqualizeRequirementSpec have run with the local copy as source. -/
def remoteMerged (re1 reRemote0 : Instance) : Instance :=
  EqualizeRequirementSpec re1 (OverrideInputMetadata re1 reRemote0)

/-- Writes issued by the create-if-absent step: a create only when the
remote copy has no creation timestamp yet. -/
def createWrites (r1 : Instance) : List Write :=
  if WasCreated r1 then [] else [Write.remoteCreate r1]

/-- The local copy of the connection secret, as built on lines 197-200
of the requirement reconciler: a deep copy of the remote secret,
renamed and re-namespaced to the local instance's declared reference,
owned by the local instance as controller. -/
def localSecretCopy (re2 : Instance) (ref : SecretRef) (rs : KSecret) : KSecret :=
  AddOwnerReference { rs with name := ref.name, ns := re2.ns } (asController re2)

/-- The connection-secret phase of the requirement reconciler (lines
179-204), entered after spec/status sync succeeded with local object
re2 and accumulated writes ws3. -/
def secretPhase (env : ReqEnv) (re2 : Instance) (ws3 : List Write) : ReqOutcome :=
  match re2.spec.writeConnectionSecretToRef with
  | none => ⟨Directive.after shortWait, false, ws3, false⟩
  | some ref =>
    match env.remoteSecretGet with
    | GetResult.err => ⟨Directive.after shortWait, true, ws3, false⟩
    | GetResult.notFound => ⟨Directive.after longWait, false, ws3, false⟩
    | GetResult.ok rs =>
      match env.localApplySecretOk with
      | true =>
        ⟨Directive.after longWait, false,
          ws3 ++ [Write.localApplySecret (localSecretCopy re2 ref rs)], false⟩
      | false =>
        ⟨Directive.after shortWait, true,
          ws3 ++ [Write.localApplySecret (localSecretCopy re2 ref rs)], false⟩

/-- The non-deletion path of Reconciler.Reconcile in
pkg/controllers/requirement/reconciler.go (lines 149-204): add the
finalizer, equalize metadata and spec onto the remote copy, create it
if absent, update both sides, propagate status, then run the
connection-secret phase. -/
def reqSync (env : ReqEnv) (re reRemote0 : Instance) : ReqOutcome :=
  match re.finalizers.contains syncFinalizerName || env.addFinalizerOk with
  | false => ⟨Directive.after shortWait, true, addFinWrites re, false⟩
  | true =>
    let re1 := withFinalizer re
    let r1 := remoteMerged re1 reRemote0
    match WasCreated r1 || env.remoteCreateOk with
    | false => ⟨Directive.after shortWait, true, addFinWrites re ++ createWrites r1, false⟩
    | true =>
      let ws1 := addFinWrites re ++ createWrites r1 ++ [Write.remoteUpdate r1]
      match env.remoteUpdateOk with
      | false => ⟨Directive.after shortWait, true, ws1, false⟩
      | true =>
        let ws2 := ws1 ++ [Write.localUpdate re1]
        match env.localUpdateOk with
        | false => ⟨Directive.after shortWait, true, ws2, false⟩
        | true =>
          match env.statusConvOk with
          | false => ⟨Directive.after shortWait, true, ws2, false⟩
          | true =>
            let re2 := PropagateStatus r1 re1
            let ws3 := ws2 ++ [Write.localStatusUpdate re2]
            match env.localStatusUpdateOk with
            | false => ⟨Directive.after shortWait, true, ws3, false⟩
            | true => secretPhase env re2 ws3

/-- Reconciler.Reconcile of pkg/controllers/requirement/reconciler.go
(lines 117-205): get the local instance (absence ends the loop with no
requeue), get the remote instance, run the finalizer-driven deletion
protocol when the local copy is marked deleted, otherwise synchronize
the two copies. -/
def reqReconcile (env : ReqEnv) : ReqOutcome :=
  match env.localGet with
  | GetResult.err => ⟨Directive.after shortWait, true, [], false⟩
  | GetResult.notFound => ⟨Directive.noRequeue, false, [], false⟩
  | GetResult.ok re =>
    match env.remoteGet with
    | GetResult.err => ⟨Directive.after shortWait, true, [], false⟩
    | GetResult.notFound =>
      match WasDeleted re with
      | true =>
        match re.finalizers.contains syncFinalizerName with
        | true =>
          match env.removeFinalizerOk with
          | true => ⟨Directive.noRequeue, false, [Write.removeFinalizer re], true⟩
          | false => ⟨Directive.after shortWait, true, [Write.removeFinalizer re], false⟩
        | false => ⟨Directive.noRequeue, false, [], true⟩
      | false => reqSync env re freshInstance
    | GetResult.ok fetched =>
      match WasDeleted re with
      | true =>
        match env.remoteDeleteRes with
        | OpResult.err =>
          ⟨Directive.after shortWait, true, [Write.remoteDelete fetched], false⟩
        | _ => ⟨Directive.after tinyWait, false, [Write.remoteDelete fetched], false⟩
      | false => reqSync env re fetched

/-- A CRD as far as the readiness gate observes it. -/
structure CRD where
  established : Bool
deriving DecidableEq

/-- Environment of one cluster-syncer invocation, including the
garbage-collection sweep it triggers. -/
structure SyncEnv where
  crdGet : GetResult CRD
  remoteGet : GetResult Instance
  localGet : GetResult Instance
  applyOk : Bool
  localList : Option (List Instance)
  remoteList : Option (List Instance)
  deleteRes : List (String × OpResult)
deriving DecidableEq

/-- Outcome of one cluster-syncer invocation. -/
structure SyncOutcome where
  directive : Directive
  hasError : Bool
  writes : List Write
deriving DecidableEq

/-- Per-name delete results of the sweep; a name not listed deletes
successfully. -/
def lookupOp (res : List (String × OpResult)) (n : String) : OpResult :=
  match res.find? (fun p => p.1 == n) with
  | some p => p.2
  | none => OpResult.ok

/-- The removal set of Reconciler.Cleanup: names present in the local
list and absent from the remote list (the Go map is modelled in
first-occurrence order). -/
def removalNames (locals remotes : List Instance) : List String :=
  ((locals.map Instance.name).dedup).filter
    (fun n => decide (n ∉ remotes.map Instance.name))

/-- The deletion loop of Reconciler.Cleanup (lines 287-293): delete each
name in turn; not-found counts as success; any other failure aborts the
sweep at once, leaving the remaining names unattempted. -/
def runDeletes (res : List (String × OpResult)) : List String → List Write × Bool
  | [] => ([], false)
  | n :: rest =>
    match lookupOp res n with
    | OpResult.err => ([Write.localDeleteName n], true)
    | _ =>
      let out := runDeletes res rest
      (Write.localDeleteName n :: out.1, out.2)

/-- Reconciler.Cleanup of pkg/controllers/cluster/syncer/reconciler.go
(lines 271-295): list both sides, diff the names, delete the local
orphans. Either list failure aborts before any delete. Returns the
issued deletes and whether an error was returned. -/
def cleanup (env : SyncEnv) : List Write × Bool :=
  match env.localList with
  | none => ([], true)
  | some locals =>
    match env.remoteList with
    | none => ([], true)
    | some remotes => runDeletes env.deleteRes (removalNames locals remotes)

/-- The apply-and-sweep tail of the syncer's Reconcile (lines 264-268):
equalize metadata onto the fetched remote copy, apply it locally, then
run the sweep; every return carries the short wait. -/
def syncApply (env : SyncEnv) (inst existing : Instance) : SyncOutcome :=
  match env.applyOk with
  | false =>
    ⟨Directive.after shortWait, true, [Write.localApplyInstance (EqualizeMetadata existing inst)]⟩
  | true =>
    ⟨Directive.after shortWait, (cleanup env).2,
      Write.localApplyInstance (EqualizeMetadata existing inst) :: (cleanup env).1⟩

/-- Reconciler.Reconcile of pkg/controllers/cluster/syncer/reconciler.go
(lines 241-269): readiness gate on the CRD first (any failure, absence
included, is an error), then fetch remote (any failure, absence
included, is an error), fetch local (absence tolerated), apply, sweep. -/
def syncReconcile (env : SyncEnv) : SyncOutcome :=
  match env.crdGet with
  | GetResult.ok crd =>
    match crd.established with
    | true =>
      match env.remoteGet with
      | GetResult.ok inst =>
        match env.localGet with
        | GetResult.err => ⟨Directive.after shortWait, true, []⟩
        | GetResult.notFound => syncApply env inst freshInstance
        | GetResult.ok existing => syncApply env inst existing
      | _ => ⟨Directive.after shortWait, true, []⟩
    | false => ⟨Directive.after shortWait, true, []⟩
  | _ => ⟨Directive.after shortWait, true, []⟩

/-! Concrete sample data used by witnesses and counterexamples. -/

/-- Sample instance named "A". -/
def instA : Instance := { freshInstance with name := "A" }

/-- Sample instance named "B". -/
def instB : Instance := { freshInstance with name := "B" }

/-- Sample instance named "C". -/
def instC : Instance := { freshInstance with name := "C" }

/-- Sample instance named "D". -/
def instD : Instance := { freshInstance with name := "D" }

/-- A syncer environment exercising only the sweep with the given local
and remote lists; every list call succeeds and every delete succeeds. -/
def gcEnv (L R : List Instance) : SyncEnv :=
  ⟨GetResult.err, GetResult.err, GetResult.err, true, some L, some R, []⟩

/-- A fully successful syncer environment: established CRD, both gets
succeed, apply succeeds, both lists succeed, the single orphan-free
diff deletes nothing. -/
def c1FullEnv : SyncEnv :=
  ⟨GetResult.ok ⟨true⟩, GetResult.ok instB, GetResult.ok instB, true,
    some [instB], some [instB], []⟩

/-- A local requirement carrying the sync finalizer and declaring a
connection-secret reference. -/
def reW : Instance :=
  { freshInstance with
      name := "x"
      ns := "ns-local"
      sys := ⟨"uid-x", "rv1", 7, 2⟩
      finalizers := [syncFinalizerName]
      spec := ⟨some ⟨"s-local"⟩, [("f", "v")]⟩ }

/-- The remote copy of reW, with its own system metadata and an
observed status. -/
def reRemW : Instance :=
  { freshInstance with
      name := "x"
      ns := "ns-remote"
      sys := ⟨"uid-remote", "rv9", 5, 3⟩
      spec := ⟨some ⟨"s-local"⟩, [("f", "v")]⟩
      status := [("ready", "true")] }

/-- The remote connection secret, under its own remote name and
namespace. -/
def secW : KSecret := ⟨"s-remote", "ns-remote", [("user", "u"), ("pass", "p")], []⟩

/-- Requirement environment: everything succeeds, remote copy exists,
remote secret exists. -/
def envReqOk : ReqEnv :=
  ⟨GetResult.ok reW, GetResult.ok reRemW, true, OpResult.ok,
    true, true, true, true, true, true, GetResult.ok secW, true⟩

/-- The local requirement reW marked for deletion. -/
def reWDel : Instance := { reW with deletionTimestamp := some 11 }

/-- Requirement environment: local copy marked deleted, remote copy
still exists, delete succeeds. -/
def envReqDel : ReqEnv :=
  ⟨GetResult.ok reWDel, GetResult.ok reRemW, true, OpResult.ok,
    true, true, true, true, true, true, GetResult.ok secW, true⟩

/-- Requirement environment: local copy marked deleted, remote fetch
explicitly reports not-found, finalizer removal succeeds. -/
def envReqDelNF : ReqEnv :=
  ⟨GetResult.ok reWDel, GetResult.notFound, true, OpResult.ok,
    true, true, true, true, true, true, GetResult.ok secW, true⟩

/-- The local requirement reW without a connection-secret reference. -/
def reWNoRef : Instance := { reW with spec := ⟨none, [("f", "v")]⟩ }

/-- Requirement environment: full success but the local instance
declares no connection-secret reference. -/
def envReqNoRef : ReqEnv :=
  ⟨GetResult.ok reWNoRef, GetResult.ok reRemW, true, OpResult.ok,
    true, true, true, true, true, true, GetResult.ok secW, true⟩

/-- Requirement environment: spec/status sync succeeds but the remote
secret is not found. -/
def envReqSecretNF : ReqEnv :=
  ⟨GetResult.ok reW, GetResult.ok reRemW, true, OpResult.ok,
    true, true, true, true, true, true, GetResult.notFound, true⟩

/-- Requirement environment: the local instance is gone from the local
store. -/
def envReqGone : ReqEnv :=
  ⟨GetResult.notFound, GetResult.ok reRemW, true, OpResult.ok,
    true, true, true, true, true, true, GetResult.ok secW, true⟩

/-- Requirement environment: the remote update fails; every other
operation would succeed. -/
def envReqUpdFail : ReqEnv :=
  ⟨GetResult.ok reW, GetResult.ok reRemW, true, OpResult.ok,
    true, true, false, true, true, true, GetResult.ok secW, true⟩

/-- Syncer environment: the CRD is installed but not yet established. -/
def envCrdNotEst : SyncEnv :=
  ⟨GetResult.ok ⟨false⟩, GetResult.ok instB, GetResult.ok instB, true,
    some [instB], some [instB], []⟩

/-- Syncer environment whose local list call fails. -/
def gcEnvNone : SyncEnv :=
  ⟨GetResult.err, GetResult.err, GetResult.err, true, none, some [], []⟩

/-! Helper lemmas about the small metadata functions. -/

theorem withFinalizer_name (re : Instance) : (withFinalizer re).name = re.name := by
  unfold withFinalizer; split <;> rfl

theorem withFinalizer_ns (re : Instance) : (withFinalizer re).ns = re.ns := by
  unfold withFinalizer; split <;> rfl

theorem withFinalizer_sys (re : Instance) : (withFinalizer re).sys = re.sys := by
  unfold withFinalizer; split <;> rfl

theorem withFinalizer_spec (re : Instance) : (withFinalizer re).spec = re.spec := by
  unfold withFinalizer; split <;> rfl

theorem withFinalizer_labels (re : Instance) : (withFinalizer re).labels = re.labels := by
  unfold withFinalizer; split <;> rfl

theorem remoteMerged_sys (a b : Instance) : (remoteMerged a b).sys = b.sys := rfl

theorem remoteMerged_spec (a b : Instance) : (remoteMerged a b).spec = a.spec := rfl

theorem remoteMerged_status (a b : Instance) : (remoteMerged a b).status = b.status := rfl

theorem remoteMerged_ns (a b : Instance) : (remoteMerged a b).ns = a.ns := rfl

theorem remoteMerged_name (a b : Instance) : (remoteMerged a b).name = a.name := rfl

theorem remoteMerged_labels (a b : Instance) : (remoteMerged a b).labels = a.labels := rfl

theorem propagate_spec (a b : Instance) : (PropagateStatus a b).spec = b.spec := rfl

theorem propagate_sys (a b : Instance) : (PropagateStatus a b).sys = b.sys := rfl

theorem propagate_name (a b : Instance) : (PropagateStatus a b).name = b.name := rfl

theorem propagate_ns (a b : Instance) : (PropagateStatus a b).ns = b.ns := rfl

theorem propagate_status (a b : Instance) : (PropagateStatus a b).status = a.status := rfl

theorem equalizeMeta_sys (e i : Instance) : (EqualizeMetadata e i).sys = e.sys := rfl

theorem equalizeMeta_spec (e i : Instance) : (EqualizeMetadata e i).spec = i.spec := rfl

theorem equalizeMeta_status (e i : Instance) : (EqualizeMetadata e i).status = i.status := rfl

theorem addOwner_name (s : KSecret) (r : OwnerRef) : (AddOwnerReference s r).name = s.name := by
  unfold AddOwnerReference; split <;> rfl

theorem addOwner_ns (s : KSecret) (r : OwnerRef) : (AddOwnerReference s r).ns = s.ns := by
  unfold AddOwnerReference; split <;> rfl

theorem addOwner_data (s : KSecret) (r : OwnerRef) : (AddOwnerReference s r).data = s.data := by
  unfold AddOwnerReference; split <;> rfl

theorem addOwner_mem (s : KSecret) (r : OwnerRef) : r ∈ (AddOwnerReference s r).ownerRefs := by
  unfold AddOwnerReference
  by_cases h : s.ownerRefs.any (fun o => o.uid == r.uid) = true
  · simp only [h, if_true]
    obtain ⟨o, ho, huid⟩ := List.any_eq_true.mp h
    exact List.mem_map.mpr ⟨o, ho, by simp [huid]⟩
  · simp only [h, if_false]
    simp

/-! Shape lemmas about the requirement reconciler. -/

theorem secretPhase_error_short (env : ReqEnv) (re2 : Instance) (ws3 : List Write) :
    (secretPhase env re2 ws3).hasError = true →
    (secretPhase env re2 ws3).directive = Directive.after shortWait := by
  unfold secretPhase
  cases href : re2.spec.writeConnectionSecretToRef <;> simp only [href]
  · simp
  · cases hsg : env.remoteSecretGet <;> simp only [hsg]
    · cases hla : env.localApplySecretOk <;> simp only [hla] <;> simp
    · simp
    · simp

theorem reqSync_error_short (env : ReqEnv) (re r0 : Instance) :
    (reqSync env re r0).hasError = true →
    (reqSync env re r0).directive = Directive.after shortWait := by
  unfold reqSync
  cases h1 : re.finalizers.contains syncFinalizerName || env.addFinalizerOk <;>
    simp only [h1]
  · simp
  · cases h2 : WasCreated (remoteMerged (withFinalizer re) r0) || env.remoteCreateOk <;>
      simp only [h2]
    · simp
    · cases h3 : env.remoteUpdateOk <;> simp only [h3]
      · simp
      · cases h4 : env.localUpdateOk <;> simp only [h4]
        · simp
        · cases h5 : env.statusConvOk <;> simp only [h5]
          · simp
          · cases h6 : env.localStatusUpdateOk <;> simp only [h6]
            · simp
            · exact secretPhase_error_short env _ _

theorem req_error_short (env : ReqEnv) :
    (reqReconcile env).hasError = true →
    (reqReconcile env).directive = Directive.after shortWait := by
  unfold reqReconcile
  cases hl : env.localGet <;> simp only [hl]
  case ok re =>
    cases hr : env.remoteGet <;> simp only [hr]
    case ok fetched =>
      cases hd : WasDeleted re <;> simp only [hd]
      case false => exact reqSync_error_short env re fetched
      case true => cases hdel : env.remoteDeleteRes <;> simp only [hdel] <;> simp
    case notFound =>
      cases hd : WasDeleted re <;> simp only [hd]
      case false => exact reqSync_error_short env re freshInstance
      case true =>
        cases hc : re.finalizers.contains syncFinalizerName <;> simp only [hc]
        · simp
        · cases hrf : env.removeFinalizerOk <;> simp only [hrf] <;> simp
    case err => simp
  case notFound => simp
  case err => simp

theorem reqSync_no_removal (env : ReqEnv) (re r0 : Instance) :
    (reqSync env re r0).removedFinalizer = false := by
  unfold reqSync
  cases h1 : re.finalizers.contains syncFinalizerName || env.addFinalizerOk <;>
    simp only [h1]
  cases h2 : WasCreated (remoteMerged (withFinalizer re) r0) || env.remoteCreateOk <;>
    simp only [h2]
  cases h3 : env.remoteUpdateOk <;> simp only [h3]
  cases h4 : env.localUpdateOk <;> simp only [h4]
  cases h5 : env.statusConvOk <;> simp only [h5]
  cases h6 : env.localStatusUpdateOk <;> simp only [h6]
  unfold secretPhase
  cases href :
      (PropagateStatus (remoteMerged (withFinalizer re) r0)
        (withFinalizer re)).spec.writeConnectionSecretToRef <;>
    simp only [href]
  cases hsg : env.remoteSecretGet <;> simp only [hsg]
  cases hla : env.localApplySecretOk <;> simp only [hla]

theorem sync_always_short (env : SyncEnv) :
    (syncReconcile env).directive = Directive.after shortWait := by
  unfold syncReconcile syncApply
  cases hc : env.crdGet <;> simp only [hc]
  rename_i crd
  cases hest : crd.established <;> simp only [hest]
  cases hr : env.remoteGet <;> simp only [hr]
  rename_i inst
  cases hl : env.localGet <;> simp only [hl]
  all_goals cases ha : env.applyOk <;> simp only [ha]

theorem reqSync_noerr_directive (env : ReqEnv) (re r0 : Instance) :
    (reqSync env re r0).hasError = false →
    ((re.spec.writeConnectionSecretToRef = none ∧
      (reqSync env re r0).directive = Directive.after shortWait) ∨
     (re.spec.writeConnectionSecretToRef ≠ none ∧
      (reqSync env re r0).directive = Directive.after longWait)) := by
  unfold reqSync
  cases h1 : re.finalizers.contains syncFinalizerName || env.addFinalizerOk <;>
    simp only [h1]
  · simp
  · cases h2 : WasCreated (remoteMerged (withFinalizer re) r0) || env.remoteCreateOk <;>
      simp only [h2]
    · simp
    · cases h3 : env.remoteUpdateOk <;> simp only [h3]
      · simp
      · cases h4 : env.localUpdateOk <;> simp only [h4]
        · simp
        · cases h5 : env.statusConvOk <;> simp only [h5]
          · simp
          · cases h6 : env.localStatusUpdateOk <;> simp only [h6]
            · simp
            · unfold secretPhase
              simp only [propagate_spec, withFinalizer_spec]
              cases href : re.spec.writeConnectionSecretToRef <;> simp only [href]
              · simp
              · cases hsg : env.remoteSecretGet <;> simp only [hsg]
                · cases hla : env.localApplySecretOk <;> simp only [hla] <;> simp
                · simp
                · simp

theorem req_noerr_directive (env : ReqEnv) (re : Instance)
    (hl : env.localGet = GetResult.ok re) (hd : WasDeleted re = false) :
    (reqReconcile env).hasError = false →
    ((re.spec.writeConnectionSecretToRef = none ∧
      (reqReconcile env).directive = Directive.after shortWait) ∨
     (re.spec.writeConnectionSecretToRef ≠ none ∧
      (reqReconcile env).directive = Directive.after longWait)) := by
  unfold reqReconcile
  simp only [hl]
  cases hrg : env.remoteGet <;> simp only [hrg, hd]
  · exact reqSync_noerr_directive env re _
  · exact reqSync_noerr_directive env re freshInstance
  · simp

/-- C1 (amended): the cluster-syncer variant returns the short wait on
every invocation, success included; in the requirement variant any
failure yields the short wait, full success yields the long wait exactly
when a connection-secret reference is declared and the short wait
otherwise, and no requeue is returned when the object no longer exists
locally and is not the deletion target. -/
theorem c1_requeue_policy :
    (∀ env : SyncEnv, (syncReconcile env).directive = Directive.after shortWait) ∧
    (∀ env : ReqEnv, (reqReconcile env).hasError = true →
      (reqReconcile env).directive = Directive.after shortWait) ∧
    (∀ (env : ReqEnv) (re : Instance), env.localGet = GetResult.ok re →
      WasDeleted re = false → (reqReconcile env).hasError = false →
      ((re.spec.writeConnectionSecretToRef = none ∧
        (reqReconcile env).directive = Directive.after shortWait) ∨
       (re.spec.writeConnectionSecretToRef ≠ none ∧
        (reqReconcile env).directive = Directive.after longWait))) ∧
    (∀ env : ReqEnv, env.localGet = GetResult.notFound →
      (reqReconcile env).directive = Directive.noRequeue ∧
      (reqReconcile env).hasError = false) := by
  refine ⟨sync_always_short, req_error_short, req_noerr_directive, ?_⟩
  intro env h
  unfold reqReconcile
  simp [h]

/-- C1 counterexample: a cluster-syncer invocation in which every step
fully succeeds returns the short (~30s) wait, not the longer (~1-2min)
wait the claim requires. -/
theorem c1_counterexample :
    (syncReconcile c1FullEnv).hasError = false ∧
    (syncReconcile c1FullEnv).directive = Directive.after shortWait ∧
    Directive.after shortWait ≠ Directive.after longWait := by decide

/-- C1 witness: the amended policy instantiated at concrete
environments for each of its four clauses. -/
theorem c1_requeue_policy_witness :
    (syncReconcile c1FullEnv).directive = Directive.after shortWait ∧
    ((reqReconcile envReqUpdFail).hasError = true ∧
     (reqReconcile envReqUpdFail).directive = Directive.after shortWait) ∧
    ((reqReconcile envReqOk).hasError = false ∧
     ((reW.spec.writeConnectionSecretToRef = none ∧
       (reqReconcile envReqOk).directive = Directive.after shortWait) ∨
      (reW.spec.writeConnectionSecretToRef ≠ none ∧
       (reqReconcile envReqOk).directive = Directive.after longWait))) ∧
    (envReqGone.localGet = GetResult.notFound ∧
     (reqReconcile envReqGone).directive = Directive.noRequeue ∧
     (reqReconcile envReqGone).hasError = false) :=
  ⟨c1_requeue_policy.1 c1FullEnv,
   ⟨by decide, c1_requeue_policy.2.1 envReqUpdFail (by decide)⟩,
   ⟨by decide,
    c1_requeue_policy.2.2.1 envReqOk reW rfl (by decide) (by decide)⟩,
   ⟨rfl, c1_requeue_policy.2.2.2 envReqGone rfl⟩⟩

/-- C2: during deletion, the sync finalizer is removed exactly when the
remote fetch explicitly reported not-found; removal comes with an empty
result and no error; and the finalizer is never removed while the
remote fetch returned anything other than an explicit not-found. -/
theorem c2_finalizer_removed_iff_remote_absent :
    (∀ env : ReqEnv, (reqReconcile env).removedFinalizer = true →
      env.remoteGet = GetResult.notFound) ∧
    (∀ (env : ReqEnv) (re : Instance), env.localGet = GetResult.ok re →
      WasDeleted re = true → env.remoteGet = GetResult.notFound →
      env.removeFinalizerOk = true →
      (reqReconcile env).removedFinalizer = true ∧
      (reqReconcile env).directive = Directive.noRequeue ∧
      (reqReconcile env).hasError = false) ∧
    (∀ env : ReqEnv, (reqReconcile env).removedFinalizer = true →
      (reqReconcile env).directive = Directive.noRequeue ∧
      (reqReconcile env).hasError = false) := by
  refine ⟨?_, ?_, ?_⟩
  · intro env
    unfold reqReconcile
    cases hl : env.localGet <;> simp only [hl]
    case ok re =>
      cases hrg : env.remoteGet <;> simp only [hrg]
      case ok fetched =>
        cases hd : WasDeleted re <;> simp only [hd]
        case true => cases hdel : env.remoteDeleteRes <;> simp only [hdel] <;> simp
        case false => simp [reqSync_no_removal]
      case notFound => simp
      case err => simp
    case notFound => simp
    case err => simp
  · intro env re hl hd hrg hrf
    unfold reqReconcile
    simp only [hl, hrg, hd]
    cases hcf : re.finalizers.contains syncFinalizerName <;>
      simp only [hcf, hrf] <;> simp
  · intro env
    unfold reqReconcile
    cases hl : env.localGet <;> simp only [hl]
    case ok re =>
      cases hrg : env.remoteGet <;> simp only [hrg]
      case ok fetched =>
        cases hd : WasDeleted re <;> simp only [hd]
        case true => cases hdel : env.remoteDeleteRes <;> simp only [hdel] <;> simp
        case false => simp [reqSync_no_removal]
      case notFound =>
        cases hd : WasDeleted re <;> simp only [hd]
        case true =>
          cases hcf : re.finalizers.contains syncFinalizerName <;> simp only [hcf]
          case true =>
            cases hrf : env.removeFinalizerOk <;> simp only [hrf] <;> simp
          case false => simp
        case false => simp [reqSync_no_removal]
      case err => simp
    case notFound => simp
    case err => simp

/-- C2 witness: with a deleted local copy carrying the finalizer and a
remote fetch reporting not-found, the finalizer is removed, the result
is empty with no requeue and no error, and the safety direction
recovers that the remote fetch indeed reported not-found. -/
theorem c2_finalizer_removed_iff_remote_absent_witness :
    ((reqReconcile envReqDelNF).removedFinalizer = true ∧
     (reqReconcile envReqDelNF).directive = Directive.noRequeue ∧
     (reqReconcile envReqDelNF).hasError = false) ∧
    envReqDelNF.remoteGet = GetResult.notFound :=
  ⟨c2_finalizer_removed_iff_remote_absent.2.1 envReqDelNF reWDel rfl (by decide) rfl rfl,
   c2_finalizer_removed_iff_remote_absent.1 envReqDelNF
     (c2_finalizer_removed_iff_remote_absent.2.1 envReqDelNF reWDel rfl
       (by decide) rfl rfl).1⟩

/-- C6: when the schema definition is absent, or present but not yet
established, the syncer returns a short-wait retry with an error and
performs zero writes to either store. -/
theorem c6_readiness_gate_blocks_writes (env : SyncEnv)
    (h : env.crdGet = GetResult.notFound ∨
      ∃ c, env.crdGet = GetResult.ok c ∧ c.established = false) :
    (syncReconcile env).directive = Directive.after shortWait ∧
    (syncReconcile env).hasError = true ∧
    (syncReconcile env).writes = [] := by
  rcases h with h | ⟨c, h, hc⟩
  · unfold syncReconcile
    simp [h]
  · unfold syncReconcile
    simp [h, hc]

/-- C6 witness: a CRD that is installed but not established blocks the
sync with a short wait and no writes. -/
theorem c6_readiness_gate_blocks_writes_witness :
    (envCrdNotEst.crdGet = GetResult.notFound ∨
      ∃ c, envCrdNotEst.crdGet = GetResult.ok c ∧ c.established = false) ∧
    ((syncReconcile envCrdNotEst).directive = Directive.after shortWait ∧
     (syncReconcile envCrdNotEst).hasError = true ∧
     (syncReconcile envCrdNotEst).writes = []) :=
  ⟨Or.inr ⟨⟨false⟩, rfl, rfl⟩,
   c6_readiness_gate_blocks_writes envCrdNotEst (Or.inr ⟨⟨false⟩, rfl, rfl⟩)⟩

/-- C7: when deletion is requested and the remote instance still
exists, a delete is issued against the remote copy, the result is the
tiny (~5s) wait rather than the longer retry wait, and the finalizer is
not removed in that invocation. -/
theorem c7_deletion_issues_remote_delete (env : ReqEnv) (re fetched : Instance)
    (hl : env.localGet = GetResult.ok re) (hd : WasDeleted re = true)
    (hr : env.remoteGet = GetResult.ok fetched)
    (hdel : env.remoteDeleteRes ≠ OpResult.err) :
    (reqReconcile env).writes = [Write.remoteDelete fetched] ∧
    (reqReconcile env).directive = Directive.after tinyWait ∧
    (reqReconcile env).removedFinalizer = false ∧
    (reqReconcile env).hasError = false ∧
    tinyWait < shortWait := by
  unfold reqReconcile
  simp only [hl, hr, hd]
  cases hdr : env.remoteDeleteRes
  · simp [tinyWait, shortWait]
  · simp [tinyWait, shortWait]
  · exact absurd hdr hdel

/-- C7 witness: the deletion branch at a concrete environment. -/
theorem c7_deletion_issues_remote_delete_witness :
    (envReqDel.localGet = GetResult.ok reWDel ∧ WasDeleted reWDel = true ∧
     envReqDel.remoteGet = GetResult.ok reRemW ∧
     envReqDel.remoteDeleteRes ≠ OpResult.err) ∧
    ((reqReconcile envReqDel).writes = [Write.remoteDelete reRemW] ∧
     (reqReconcile envReqDel).directive = Directive.after tinyWait ∧
     (reqReconcile envReqDel).removedFinalizer = false ∧
     (reqReconcile envReqDel).hasError = false ∧
     tinyWait < shortWait) :=
  ⟨⟨rfl, by decide, rfl, by decide⟩,
   c7_deletion_issues_remote_delete envReqDel reWDel reRemW rfl (by decide) rfl
     (by decide)⟩

/-- C10: a fully successful requirement reconciliation of an instance
with no connection-secret reference returns the short (~30s) wait, not
the long wait used for full success with a secret. -/
theorem c10_success_without_ref_short (env : ReqEnv) (re : Instance)
    (hl : env.localGet = GetResult.ok re) (hd : WasDeleted re = false)
    (href : re.spec.writeConnectionSecretToRef = none)
    (herr : (reqReconcile env).hasError = false) :
    (reqReconcile env).directive = Directive.after shortWait ∧
    Directive.after shortWait ≠ Directive.after longWait := by
  rcases req_noerr_directive env re hl hd herr with ⟨_, hdir⟩ | ⟨hne, _⟩
  · exact ⟨hdir, by decide⟩
  · exact absurd href hne

/-- C10 witness: the no-reference success case at a concrete
environment. -/
theorem c10_success_without_ref_short_witness :
    (envReqNoRef.localGet = GetResult.ok reWNoRef ∧ WasDeleted reWNoRef = false ∧
     reWNoRef.spec.writeConnectionSecretToRef = none ∧
     (reqReconcile envReqNoRef).hasError = false) ∧
    ((reqReconcile envReqNoRef).directive = Directive.after shortWait ∧
     Directive.after shortWait ≠ Directive.after longWait) :=
  ⟨⟨rfl, by decide, by decide, by decide⟩,
   c10_success_without_ref_short envReqNoRef reWNoRef rfl (by decide) (by decide)
     (by decide)⟩

/-! Lemmas about the garbage-collection sweep. -/

theorem runDeletes_all_ok (ns : List String) :
    runDeletes [] ns = (ns.map Write.localDeleteName, false) := by
  induction ns with
  | nil => rfl
  | cons n rest ih => simp [runDeletes, lookupOp, ih]

theorem mem_removalNames (L R : List Instance) (n : String) :
    n ∈ removalNames L R ↔ n ∈ L.map Instance.name ∧ n ∉ R.map Instance.name := by
  simp [removalNames, List.mem_filter, List.mem_dedup]

/-- C3: one sweep over local list L and remote list R deletes exactly
the names present locally and absent remotely; a sweep returns no
error when all operations succeed; re-running after the deletions (the
survivors are the locals whose names exist remotely) deletes nothing;
and on the spec's example, local A,B,C against remote B,C,D deletes
exactly A. -/
theorem c3_gc_sweep_exact_diff (L R : List Instance) :
    (∀ n, Write.localDeleteName n ∈ (cleanup (gcEnv L R)).1 ↔
      (n ∈ L.map Instance.name ∧ n ∉ R.map Instance.name)) ∧
    (cleanup (gcEnv L R)).2 = false ∧
    (cleanup (gcEnv (L.filter fun i => decide (i.name ∈ R.map Instance.name)) R)).1 = [] ∧
    (cleanup (gcEnv [instA, instB, instC] [instB, instC, instD])).1 =
      [Write.localDeleteName "A"] := by
  have hclean : ∀ L' : List Instance,
      cleanup (gcEnv L' R) = ((removalNames L' R).map Write.localDeleteName, false) := by
    intro L'
    simp [cleanup, gcEnv, runDeletes_all_ok]
  refine ⟨?_, ?_, ?_, by decide⟩
  · intro n
    rw [hclean]
    constructor
    · intro h
      obtain ⟨m, hm, he⟩ := List.mem_map.mp h
      have hmn : m = n := by simpa using he
      subst hmn
      exact (mem_removalNames L R m).mp hm
    · intro h
      exact List.mem_map.mpr ⟨n, (mem_removalNames L R n).mpr h, rfl⟩
  · rw [hclean]
  · have hrn : removalNames (L.filter fun i => decide (i.name ∈ R.map Instance.name)) R = [] := by
      unfold removalNames
      rw [List.filter_eq_nil_iff]
      intro n hn
      rw [List.mem_dedup] at hn
      obtain ⟨i, hi, rfl⟩ := List.mem_map.mp hn
      obtain ⟨hiL, hiR⟩ := List.mem_filter.mp hi
      simp only [decide_eq_true_eq] at hiR
      simp [hiR]
    rw [hclean, hrn]
    rfl

/-- C9: in the sweep's deletion loop a not-found delete counts as
success and the loop continues with the remaining names; any other
delete failure ends the sweep at once with an error, attempting none of
the remaining names; and a failure of either list call aborts the sweep
with an error before any delete. -/
theorem c9_sweep_error_handling :
    (∀ (res : List (String × OpResult)) (n : String) (rest : List String),
      lookupOp res n = OpResult.notFound →
      runDeletes res (n :: rest) =
        (Write.localDeleteName n :: (runDeletes res rest).1,
         (runDeletes res rest).2)) ∧
    (∀ (res : List (String × OpResult)) (n : String) (rest : List String),
      lookupOp res n = OpResult.err →
      runDeletes res (n :: rest) = ([Write.localDeleteName n], true)) ∧
    (∀ env : SyncEnv, env.localList = none ∨ env.remoteList = none →
      cleanup env = ([], true)) := by
  refine ⟨?_, ?_, ?_⟩
  · intro res n rest h
    simp [runDeletes, h]
  · intro res n rest h
    simp [runDeletes, h]
  · intro env h
    unfold cleanup
    rcases h with h | h
    · simp [h]
    · cases hll : env.localList <;> simp [hll, h]

/-- C9 witness: a not-found delete continues past the failing name, an
erroring delete stops the loop with only that attempt recorded, and a
failed local list aborts with no deletes. -/
theorem c9_sweep_error_handling_witness :
    (lookupOp [("A", OpResult.notFound)] "A" = OpResult.notFound ∧
     runDeletes [("A", OpResult.notFound)] ["A", "B"] =
       (Write.localDeleteName "A" :: (runDeletes [("A", OpResult.notFound)] ["B"]).1,
        (runDeletes [("A", OpResult.notFound)] ["B"]).2)) ∧
    (lookupOp [("A", OpResult.err)] "A" = OpResult.err ∧
     runDeletes [("A", OpResult.err)] ["A", "B"] = ([Write.localDeleteName "A"], true)) ∧
    ((gcEnvNone.localList = none ∨ gcEnvNone.remoteList = none) ∧
     cleanup gcEnvNone = ([], true)) :=
  ⟨⟨by decide, c9_sweep_error_handling.1 [("A", OpResult.notFound)] "A" ["B"] (by decide)⟩,
   ⟨by decide, c9_sweep_error_handling.2.1 [("A", OpResult.err)] "A" ["B"] (by decide)⟩,
   ⟨Or.inl rfl, c9_sweep_error_handling.2.2 gcEnvNone (Or.inl rfl)⟩⟩

/-! Lemmas locating the writes a requirement reconciliation can issue. -/

theorem reqSync_flags_eq (env : ReqEnv) (re r0 : Instance)
    (ha : env.addFinalizerOk = true) (hc : env.remoteCreateOk = true)
    (hru : env.remoteUpdateOk = true) (hlu : env.localUpdateOk = true)
    (hsc : env.statusConvOk = true) (hlsu : env.localStatusUpdateOk = true) :
    reqSync env re r0 =
      secretPhase env
        (PropagateStatus (remoteMerged (withFinalizer re) r0) (withFinalizer re))
        (addFinWrites re ++
          (createWrites (remoteMerged (withFinalizer re) r0) ++
            [Write.remoteUpdate (remoteMerged (withFinalizer re) r0),
             Write.localUpdate (withFinalizer re),
             Write.localStatusUpdate
               (PropagateStatus (remoteMerged (withFinalizer re) r0) (withFinalizer re))])) := by
  unfold reqSync
  cases h1 : re.finalizers.contains syncFinalizerName || env.addFinalizerOk <;>
    simp only [h1]
  · rw [ha] at h1
    simp at h1
  · cases h2 : WasCreated (remoteMerged (withFinalizer re) r0) || env.remoteCreateOk <;>
      simp only [h2]
    · rw [hc] at h2
      simp at h2
    · simp only [hru, hlu, hsc, hlsu]
      simp [List.append_assoc]

theorem mem_addFinWrites (re : Instance) (w : Write) :
    w ∈ addFinWrites re → w = Write.addFinalizer re := by
  unfold addFinWrites; split <;> simp

theorem mem_createWrites (r1 : Instance) (w : Write) :
    w ∈ createWrites r1 → w = Write.remoteCreate r1 := by
  unfold createWrites; split <;> simp

theorem mem_syncWrites (re r0 : Instance) (w : Write) :
    w ∈ addFinWrites re ++ createWrites (remoteMerged (withFinalizer re) r0) ++
      [Write.remoteUpdate (remoteMerged (withFinalizer re) r0)] ++
      [Write.localUpdate (withFinalizer re)] ++
      [Write.localStatusUpdate
        (PropagateStatus (remoteMerged (withFinalizer re) r0) (withFinalizer re))] →
    (w = Write.addFinalizer re ∨
     w = Write.remoteCreate (remoteMerged (withFinalizer re) r0) ∨
     w = Write.remoteUpdate (remoteMerged (withFinalizer re) r0) ∨
     w = Write.localUpdate (withFinalizer re) ∨
     w = Write.localStatusUpdate
       (PropagateStatus (remoteMerged (withFinalizer re) r0) (withFinalizer re)) ∨
     ∃ s, w = Write.localApplySecret s) := by
  intro h
  rcases List.mem_append.mp h with h | h
  · rcases List.mem_append.mp h with h | h
    · rcases List.mem_append.mp h with h | h
      · rcases List.mem_append.mp h with h | h
        · exact Or.inl (mem_addFinWrites re w h)
        · exact Or.inr (Or.inl (mem_createWrites _ w h))
      · exact Or.inr (Or.inr (Or.inl (by simpa using h)))
    · exact Or.inr (Or.inr (Or.inr (Or.inl (by simpa using h))))
  · exact Or.inr (Or.inr (Or.inr (Or.inr (Or.inl (by simpa using h)))))

theorem reqSync_writes_sub (env : ReqEnv) (re r0 : Instance) (w : Write) :
    w ∈ (reqSync env re r0).writes →
    (w = Write.addFinalizer re ∨
     w = Write.remoteCreate (remoteMerged (withFinalizer re) r0) ∨
     w = Write.remoteUpdate (remoteMerged (withFinalizer re) r0) ∨
     w = Write.localUpdate (withFinalizer re) ∨
     w = Write.localStatusUpdate
       (PropagateStatus (remoteMerged (withFinalizer re) r0) (withFinalizer re)) ∨
     ∃ s, w = Write.localApplySecret s) := by
  unfold reqSync
  cases h1 : re.finalizers.contains syncFinalizerName || env.addFinalizerOk <;>
    simp only [h1]
  · intro h
    exact Or.inl (mem_addFinWrites re w h)
  · cases h2 : WasCreated (remoteMerged (withFinalizer re) r0) || env.remoteCreateOk <;>
      simp only [h2]
    · intro h
      exact mem_syncWrites re r0 w
        (List.mem_append_left _ (List.mem_append_left _ (List.mem_append_left _ h)))
    · cases h3 : env.remoteUpdateOk <;> simp only [h3]
      · intro h
        exact mem_syncWrites re r0 w
          (List.mem_append_left _ (List.mem_append_left _ h))
      · cases h4 : env.localUpdateOk <;> simp only [h4]
        · intro h
          exact mem_syncWrites re r0 w (List.mem_append_left _ h)
        · cases h5 : env.statusConvOk <;> simp only [h5]
          · intro h
            exact mem_syncWrites re r0 w (List.mem_append_left _ h)
          · cases h6 : env.localStatusUpdateOk <;> simp only [h6]
            · intro h
              exact mem_syncWrites re r0 w h
            · unfold secretPhase
              cases href : (PropagateStatus (remoteMerged (withFinalizer re) r0)
                  (withFinalizer re)).spec.writeConnectionSecretToRef <;> simp only [href]
              · intro h
                exact mem_syncWrites re r0 w h
              · cases hsg : env.remoteSecretGet <;> simp only [hsg]
                · cases hla : env.localApplySecretOk <;> simp only [hla]
                  · intro h
                    rcases List.mem_append.mp h with h | h
                    · exact mem_syncWrites re r0 w h
                    · exact Or.inr (Or.inr (Or.inr (Or.inr (Or.inr ⟨_, by simpa using h⟩))))
                  · intro h
                    rcases List.mem_append.mp h with h | h
                    · exact mem_syncWrites re r0 w h
                    · exact Or.inr (Or.inr (Or.inr (Or.inr (Or.inr ⟨_, by simpa using h⟩))))
                · intro h
                  exact mem_syncWrites re r0 w h
                · intro h
                  exact mem_syncWrites re r0 w h

theorem runDeletes_writes_shape (res : List (String × OpResult)) :
    ∀ (ns : List String) (w : Write),
      w ∈ (runDeletes res ns).1 → ∃ n, w = Write.localDeleteName n := by
  intro ns
  induction ns with
  | nil => intro w h; simp [runDeletes] at h
  | cons n rest ih =>
    intro w h
    unfold runDeletes at h
    cases hop : lookupOp res n <;> simp only [hop] at h
    · rcases List.mem_cons.mp h with hx | hx
      · exact ⟨n, hx⟩
      · exact ih w hx
    · rcases List.mem_cons.mp h with hx | hx
      · exact ⟨n, hx⟩
      · exact ih w hx
    · exact ⟨n, by simpa using h⟩

theorem cleanup_writes_shape (env : SyncEnv) (w : Write) :
    w ∈ (cleanup env).1 → ∃ n, w = Write.localDeleteName n := by
  unfold cleanup
  cases hll : env.localList <;> simp only [hll]
  · intro h; simp at h
  · cases hrl : env.remoteList <;> simp only [hrl]
    · intro h; simp at h
    · exact runDeletes_writes_shape env.deleteRes _ w

/-- C4: the copies written across the store boundary never carry the
source side's system metadata. Every remote update or create issued by
the requirement reconciler carries the remote copy's own system
metadata while taking spec and labels from the local source; every
local status update keeps the local copy's system metadata while taking
status from the remote source; and the copy the syncer applies locally
keeps the existing local system metadata while taking spec and status
from the remote source. -/
theorem c4_metadata_isolation :
    (∀ (env : ReqEnv) (re fetched i : Instance),
      env.localGet = GetResult.ok re → env.remoteGet = GetResult.ok fetched →
      (Write.remoteUpdate i ∈ (reqReconcile env).writes ∨
       Write.remoteCreate i ∈ (reqReconcile env).writes) →
      i.sys = fetched.sys ∧ i.spec = re.spec ∧ i.labels = re.labels) ∧
    (∀ (env : ReqEnv) (re fetched i : Instance),
      env.localGet = GetResult.ok re → env.remoteGet = GetResult.ok fetched →
      Write.localStatusUpdate i ∈ (reqReconcile env).writes →
      i.sys = re.sys ∧ i.status = fetched.status) ∧
    (∀ (env : SyncEnv) (inst existing a : Instance),
      env.remoteGet = GetResult.ok inst → env.localGet = GetResult.ok existing →
      Write.localApplyInstance a ∈ (syncReconcile env).writes →
      a.sys = existing.sys ∧ a.spec = inst.spec ∧ a.status = inst.status) := by
  refine ⟨?_, ?_, ?_⟩
  · intro env re fetched i hl hr hmem
    unfold reqReconcile at hmem
    simp only [hl, hr] at hmem
    cases hd : WasDeleted re <;> simp only [hd] at hmem
    case true =>
      cases hdel : env.remoteDeleteRes <;> simp only [hdel] at hmem <;>
        rcases hmem with hmem | hmem <;> simp at hmem
    case false =>
      rcases hmem with hmem | hmem <;>
        rcases reqSync_writes_sub env re fetched _ hmem with h | h | h | h | h | ⟨s, h⟩ <;>
        simp_all [remoteMerged_sys, remoteMerged_spec, remoteMerged_labels,
          withFinalizer_spec, withFinalizer_labels]
  · intro env re fetched i hl hr hmem
    unfold reqReconcile at hmem
    simp only [hl, hr] at hmem
    cases hd : WasDeleted re <;> simp only [hd] at hmem
    case true =>
      cases hdel : env.remoteDeleteRes <;> simp only [hdel] at hmem <;> simp at hmem
    case false =>
      rcases reqSync_writes_sub env re fetched _ hmem with h | h | h | h | h | ⟨s, h⟩ <;>
        simp_all [propagate_sys, propagate_status, withFinalizer_sys, remoteMerged_status]
  · intro env inst existing a hr hl hmem
    unfold syncReconcile syncApply at hmem
    cases hc : env.crdGet <;> simp only [hc] at hmem
    case ok crd =>
      cases hest : crd.established <;> simp only [hest] at hmem
      case false => simp at hmem
      case true =>
        simp only [hr, hl] at hmem
        cases ha : env.applyOk <;> simp only [ha] at hmem
        case false =>
          have hx : a = EqualizeMetadata existing inst := by simpa using hmem
          subst hx
          exact ⟨rfl, rfl, rfl⟩
        case true =>
          rcases List.mem_cons.mp hmem with hx | hx
          · have hx2 : a = EqualizeMetadata existing inst := by simpa using hx
            subst hx2
            exact ⟨rfl, rfl, rfl⟩
          · obtain ⟨n, hn⟩ := cleanup_writes_shape env _ hx
            simp at hn
    case notFound => simp at hmem
    case err => simp at hmem

/-- C4 witness: the write payloads at concrete environments keep the
target-side system metadata. -/
theorem c4_metadata_isolation_witness :
    (envReqOk.localGet = GetResult.ok reW ∧ envReqOk.remoteGet = GetResult.ok reRemW ∧
     Write.remoteUpdate (remoteMerged (withFinalizer reW) reRemW) ∈
       (reqReconcile envReqOk).writes ∧
     ((remoteMerged (withFinalizer reW) reRemW).sys = reRemW.sys ∧
      (remoteMerged (withFinalizer reW) reRemW).spec = reW.spec ∧
      (remoteMerged (withFinalizer reW) reRemW).labels = reW.labels)) ∧
    (Write.localApplyInstance (EqualizeMetadata instB instB) ∈
       (syncReconcile c1FullEnv).writes ∧
     ((EqualizeMetadata instB instB).sys = instB.sys ∧
      (EqualizeMetadata instB instB).spec = instB.spec ∧
      (EqualizeMetadata instB instB).status = instB.status)) :=
  ⟨⟨rfl, rfl, by decide,
    c4_metadata_isolation.1 envReqOk reW reRemW _ rfl rfl (Or.inl (by decide))⟩,
   ⟨by decide,
    c4_metadata_isolation.2.2 c1FullEnv instB instB _ rfl rfl (by decide)⟩⟩

/-- C5: when a local instance declares a connection-secret reference
and the remote secret exists, the secret applied locally is named by
the local instance's declared reference in the local instance's own
namespace, regardless of the remote secret's own name and namespace,
carries the remote secret's data, and holds an owner reference to the
local instance marked as controller. -/
theorem c5_secret_propagation (env : ReqEnv) (re : Instance) (ref : SecretRef) (rs : KSecret)
    (hl : env.localGet = GetResult.ok re) (hd : WasDeleted re = false)
    (href : re.spec.writeConnectionSecretToRef = some ref)
    (hr : env.remoteGet ≠ GetResult.err)
    (ha : env.addFinalizerOk = true) (hc : env.remoteCreateOk = true)
    (hru : env.remoteUpdateOk = true) (hlu : env.localUpdateOk = true)
    (hsc : env.statusConvOk = true) (hlsu : env.localStatusUpdateOk = true)
    (hsg : env.remoteSecretGet = GetResult.ok rs)
    (hap : env.localApplySecretOk = true) :
    ∃ s, (reqReconcile env).writes.getLast? = some (Write.localApplySecret s) ∧
      s.name = ref.name ∧ s.ns = re.ns ∧ s.data = rs.data ∧
      asController re ∈ s.ownerRefs ∧ (asController re).controller = true := by
  have hmain : ∀ r0 : Instance,
      ∃ s, (reqSync env re r0).writes.getLast? = some (Write.localApplySecret s) ∧
        s.name = ref.name ∧ s.ns = re.ns ∧ s.data = rs.data ∧
        asController re ∈ s.ownerRefs ∧ (asController re).controller = true := by
    intro r0
    rw [reqSync_flags_eq env re r0 ha hc hru hlu hsc hlsu]
    unfold secretPhase
    simp only [propagate_spec, withFinalizer_spec, href, hsg, hap]
    refine ⟨localSecretCopy
        (PropagateStatus (remoteMerged (withFinalizer re) r0) (withFinalizer re)) ref rs,
      ?_, ?_, ?_, ?_, ?_, rfl⟩
    · simp
    · simp [localSecretCopy, addOwner_name]
    · simp [localSecretCopy, addOwner_ns, propagate_ns, withFinalizer_ns]
    · simp [localSecretCopy, addOwner_data]
    · have hac : asController
          (PropagateStatus (remoteMerged (withFinalizer re) r0) (withFinalizer re)) =
          asController re := by
        simp [asController, propagate_name, withFinalizer_name, propagate_sys,
          withFinalizer_sys]
      rw [← hac]
      exact addOwner_mem _ _
  unfold reqReconcile
  simp only [hl]
  cases hrg : env.remoteGet
  case ok fetched =>
    simp only [hrg, hd]
    exact hmain fetched
  case notFound =>
    simp only [hrg, hd]
    exact hmain freshInstance
  case err => exact absurd hrg hr

/-- C5 witness: the local secret copy at a concrete environment takes
the declared local name and namespace, the remote data, and a
controller owner reference to the local instance. -/
theorem c5_secret_propagation_witness :
    (envReqOk.localGet = GetResult.ok reW ∧ WasDeleted reW = false ∧
     reW.spec.writeConnectionSecretToRef = some ⟨"s-local"⟩ ∧
     envReqOk.remoteSecretGet = GetResult.ok secW) ∧
    (∃ s, (reqReconcile envReqOk).writes.getLast? = some (Write.localApplySecret s) ∧
      s.name = SecretRef.name ⟨"s-local"⟩ ∧ s.ns = reW.ns ∧ s.data = secW.data ∧
      asController reW ∈ s.ownerRefs ∧ (asController reW).controller = true) :=
  ⟨⟨rfl, by decide, by decide, rfl⟩,
   c5_secret_propagation envReqOk reW ⟨"s-local"⟩ secW rfl (by decide) (by decide)
     (by decide) rfl rfl rfl rfl rfl rfl rfl rfl⟩

/-- C8: when the instance declares a connection-secret reference, the
earlier sync steps succeed, and the remote secret fetch reports
not-found, the reconciliation defers with the long wait, returns no
error, and writes no secret locally. -/
theorem c8_secret_not_found_defers (env : ReqEnv) (re : Instance) (ref : SecretRef)
    (hl : env.localGet = GetResult.ok re) (hd : WasDeleted re = false)
    (href : re.spec.writeConnectionSecretToRef = some ref)
    (hr : env.remoteGet ≠ GetResult.err)
    (ha : env.addFinalizerOk = true) (hc : env.remoteCreateOk = true)
    (hru : env.remoteUpdateOk = true) (hlu : env.localUpdateOk = true)
    (hsc : env.statusConvOk = true) (hlsu : env.localStatusUpdateOk = true)
    (hsg : env.remoteSecretGet = GetResult.notFound) :
    (reqReconcile env).directive = Directive.after longWait ∧
    (reqReconcile env).hasError = false ∧
    ∀ s, Write.localApplySecret s ∉ (reqReconcile env).writes := by
  have hmain : ∀ r0 : Instance,
      (reqSync env re r0).directive = Directive.after longWait ∧
      (reqSync env re r0).hasError = false ∧
      ∀ s, Write.localApplySecret s ∉ (reqSync env re r0).writes := by
    intro r0
    rw [reqSync_flags_eq env re r0 ha hc hru hlu hsc hlsu]
    unfold secretPhase
    simp only [propagate_spec, withFinalizer_spec, href, hsg]
    refine ⟨by trivial, by trivial, ?_⟩
    intro s hmem
    rcases List.mem_append.mp hmem with h | h
    · have := mem_addFinWrites re _ h
      simp at this
    · rcases List.mem_append.mp h with h | h
      · have := mem_createWrites _ _ h
        simp at this
      · simp at h
  unfold reqReconcile
  simp only [hl]
  cases hrg : env.remoteGet
  case ok fetched =>
    simp only [hrg, hd]
    exact hmain fetched
  case notFound =>
    simp only [hrg, hd]
    exact hmain freshInstance
  case err => exact absurd hrg hr

/-- C8 witness: the deferral at a concrete environment whose remote
secret is missing. -/
theorem c8_secret_not_found_defers_witness :
    (envReqSecretNF.localGet = GetResult.ok reW ∧ WasDeleted reW = false ∧
     reW.spec.writeConnectionSecretToRef = some ⟨"s-local"⟩ ∧
     envReqSecretNF.remoteSecretGet = GetResult.notFound) ∧
    ((reqReconcile envReqSecretNF).directive = Directive.after longWait ∧
     (reqReconcile envReqSecretNF).hasError = false ∧
     ∀ s, Write.localApplySecret s ∉ (reqReconcile envReqSecretNF).writes) :=
  ⟨⟨rfl, by decide, by decide, rfl⟩,
   c8_secret_not_found_defers envReqSecretNF reW ⟨"s-local"⟩ rfl (by decide) (by decide)
     (by decide) rfl rfl rfl rfl rfl rfl rfl⟩
